import Mathlib

/-!
Verification of the TraderGPT trading scripts.

This file gives a shallow embedding of the trading logic of
`auto_trader.py` and `predictive_trader.py` (prices as rationals, the
network as explicit per-cycle inputs, Python exceptions as `Option`/except
values) and proves or refutes the specified properties of that logic.

Modelling conventions:
- Python floats are modelled as rationals.  The comparison/averaging logic
  of both strategies is exact in this model; the only rounding operation in
  the code, the 8-decimal `%.8f` formatting of the order quantity, is
  modelled by `format8` (round to the nearest multiple of 10^-8; exact
  half-way ties cannot arise from binary doubles, so the tie-break is
  immaterial).
- A network interaction's outcome (connection error, non-2xx status which
  `raise_for_status` turns into an exception, or a successful decoded JSON
  body) is an explicit input to each function that performs one.
- Python's in-place `prices.append` is a functional list append; crucially
  the append happens before any order submission, so an order exception
  keeps the appended price but skips every later statement of the `try`
  block (the `prev_short`/`prev_long` update, the `holding` flip and the
  `counter` increment), exactly as in the source.
-/

namespace TraderGPT

/-- One entry of the decoded `results` array of the best bid/ask response
(`auto_trader.py`, `fetch_price`).  Only the two price fields are relevant. -/
structure QuoteResult where
  ask_inclusive_of_buy_spread : ℚ
  bid_inclusive_of_sell_spread : ℚ
deriving DecidableEq

/-- The decoded JSON body of a best bid/ask response. -/
structure QuoteResponse where
  results : List QuoteResult
deriving DecidableEq

/-- Outcome of one HTTP GET of the best bid/ask endpoint: either a decoded
body, or a transport/non-2xx failure (which `raise_for_status` raises). -/
inductive FetchOutcome where
  | ok (resp : QuoteResponse)
  | netErr
deriving DecidableEq

/-- Model of `fetch_price` (auto_trader.py lines 53-61): returns
`data["results"][0]["ask_inclusive_of_buy_spread"]`.  `none` stands for the
exception raised on network failure, non-2xx status, or an empty/missing
results array (IndexError). -/
def fetch_price (o : FetchOutcome) : Option ℚ :=
  match o with
  | FetchOutcome.ok resp => resp.results.head?.map (fun r => r.ask_inclusive_of_buy_spread)
  | FetchOutcome.netErr => none

/-- The numeric value of Python's `f"{x:.8f}"` formatting of the quantity:
x rounded to the nearest multiple of 10^-8.  (The half-up tie-break is
unobservable: a binary double is never an exact odd multiple of 5*10^-9.) -/
def format8 (x : ℚ) : ℚ :=
  ((Int.floor (x * 100000000 + 1/2) : ℤ) : ℚ) / 100000000

/-- The order body built by `place_market_order` (auto_trader.py lines
69-75), minus the fresh UUID.  `asset_quantity` holds the numeric value of
the 8-decimal-formatted quantity string. -/
structure OrderBody where
  side : String
  symbol : String
  type : String
  asset_quantity : ℚ
deriving DecidableEq

/-- A network request made by the order path, in order of occurrence. -/
inductive NetAction where
  | getQuote (symbol : String)
  | postOrder (body : OrderBody)
deriving DecidableEq

/-- Outcome of the HTTP POST of an order. -/
inductive PostOutcome where
  | ok
  | netErr
deriving DecidableEq

/-- Model of `place_market_order` (auto_trader.py lines 64-80).  The code
performs no validation whatsoever: it immediately fetches the price (a
network GET), computes `usd_amount / price`, formats it to 8 decimals and
POSTs the body.  The result is the list of network requests actually made
together with the order body on success (`none` = an exception was
raised: failed price fetch, or failed POST). -/
def place_market_order (symbol side : String) (usd_amount : ℚ)
    (fetch : FetchOutcome) (post : PostOutcome) :
    List NetAction × Option OrderBody :=
  match fetch_price fetch with
  | none => ([NetAction.getQuote symbol], none)
  | some price =>
    let body : OrderBody :=
      { side := side, symbol := symbol, type := "market",
        asset_quantity := format8 (usd_amount / price) }
    match post with
    | PostOutcome.netErr => ([NetAction.getQuote symbol, NetAction.postOrder body], none)
    | PostOutcome.ok => ([NetAction.getQuote symbol, NetAction.postOrder body], some body)

/-- The process environment as read by `os.getenv`: each variable is
present or absent. -/
structure Env where
  api_key : Option String
  private_key_base64 : Option String
  base_url : Option String
deriving DecidableEq

/-- The module-level globals of auto_trader.py. -/
structure ModuleConfig where
  API_KEY : Option String
  PRIVATE_KEY_BASE64 : Option String
  BASE_URL : Option String
deriving DecidableEq

/-- Model of the module top level of auto_trader.py (lines 21-31):
`load_dotenv()`, three `os.getenv` reads and `logging.basicConfig`.
`os.getenv` returns the value or `None` and never raises; no base64
decoding or key construction happens here, so process start always
succeeds, whatever the environment holds. -/
def moduleInit (e : Env) : Except String ModuleConfig :=
  Except.ok { API_KEY := e.api_key, PRIVATE_KEY_BASE64 := e.private_key_base64,
              BASE_URL := e.base_url }

/-- Model of `nacl.signing.SigningKey.__init__`: accepts exactly a 32-byte
seed and raises otherwise.  The seed is the base64-decoded value of
`PRIVATE_KEY_BASE64`, given here already decoded to bytes. -/
def SigningKey_init (seed : List ℕ) : Except String (List ℕ) :=
  if seed.length = 32 then Except.ok seed
  else Except.error "SigningKey seed must be 32 bytes"

/-- Model of `generate_signature` (auto_trader.py lines 34-39): builds the
message by plain concatenation and only then constructs the SigningKey from
the decoded seed — so a wrong-length seed raises here, at signing time.
The Ed25519 signature itself is external; it is modelled as the
(key, message) pair it deterministically depends on. -/
def generate_signature (decoded_seed : List ℕ)
    (api_key timestamp path method body : String) :
    Except String (List ℕ × String) :=
  match SigningKey_init decoded_seed with
  | Except.error e => Except.error e
  | Except.ok key =>
      Except.ok (key, api_key ++ timestamp ++ path ++ method ++ body)

/-- Model of `predict_trend` (predictive_trader.py lines 16-26).  For
`1 ≤ window ≤ prices.length`, `prices[-window]` is the element at index
`prices.length - window` and `prices[-1]` the last element. -/
def predict_trend (prices : List ℚ) (window : ℕ) : Int :=
  if prices.length < window then 0
  else
    let first := prices.getD (prices.length - window) 0
    let last := prices.getD (prices.length - 1) 0
    if first < last then 1
    else if last < first then -1
    else 0

/-- Python's `l[-n:]` for a nonnegative `n`: the whole list when `n = 0`
or `n ≥ l.length`, else the last `n` elements. -/
def pyLast (n : ℕ) (l : List ℚ) : List ℚ :=
  if n = 0 then l else l.drop (l.length - n)

/-- `statistics.mean` on rationals. -/
def mean (l : List ℚ) : ℚ := l.sum / (l.length : ℚ)

/-- The parameters of `auto_trade` (auto_trader.py lines 83-89); `interval`
only feeds `time.sleep` and is not modelled. -/
structure AutoConfig where
  symbol : String
  usd_amount : ℚ
  short_window : ℕ
  long_window : ℕ
  iterations : Option ℕ
deriving DecidableEq

/-- The mutable local state of `auto_trade` (lines 109-112). -/
structure AutoState where
  prices : List ℚ
  prev_short : Option ℚ
  prev_long : Option ℚ
  holding : Bool
  counter : ℕ
deriving DecidableEq

/-- The external world's behaviour during one loop cycle: the outcome of
the loop's own `fetch_price` call and, should an order be submitted this
cycle, the outcomes of the order's internal price fetch and POST. -/
structure CycleInput where
  loopFetch : FetchOutcome
  orderFetch : FetchOutcome
  orderPost : PostOutcome
deriving DecidableEq

/-- The order-submission part of a cycle input raises no exception:
the order's own price fetch yields a price and the POST succeeds. -/
def CycleInput.orderOk (i : CycleInput) : Bool :=
  (fetch_price i.orderFetch).isSome && (i.orderPost = PostOutcome.ok)

/-- The whole cycle input is exception-free: the loop's price fetch
succeeds and any order submission would succeed. -/
def CycleInput.ok (i : CycleInput) : Bool :=
  (fetch_price i.loopFetch).isSome && i.orderOk

/-- The `counter >= iterations` break test (auto_trader.py line 138,
predictive_trader.py line 58), evaluated after `counter += 1`. -/
def breakTest (iterations : Option ℕ) (counter : ℕ) : Bool :=
  match iterations with
  | none => false
  | some n => n ≤ counter

/-- One iteration of the `while True` body of `auto_trade` (auto_trader.py
lines 114-144).  Returns the state after the cycle, the
`place_market_order` calls made (symbol, side, usd_amount), and whether the
`break` fired.  Any exception lands in the `except` branch, which only logs
and sleeps: statements of the `try` block after the raise point never run. -/
def autoCycle (cfg : AutoConfig) (s : AutoState) (inp : CycleInput) :
    AutoState × List (String × String × ℚ) × Bool :=
  match fetch_price inp.loopFetch with
  | none => (s, [], false)
  | some price =>
    let prices := s.prices ++ [price]
    let s1 : AutoState := { s with prices := prices }
    if cfg.long_window ≤ prices.length then
      let short_ma := mean (pyLast cfg.short_window prices)
      let long_ma := mean (pyLast cfg.long_window prices)
      let afterSignal : AutoState → AutoState := fun s2 =>
        { s2 with prev_short := some short_ma, prev_long := some long_ma,
                  counter := s2.counter + 1 }
      match s.prev_short, s.prev_long with
      | some ps, some pl =>
        if long_ma < short_ma ∧ ps ≤ pl ∧ s.holding = false then
          match (place_market_order cfg.symbol "buy" cfg.usd_amount
                  inp.orderFetch inp.orderPost).2 with
          | none => (s1, [(cfg.symbol, "buy", cfg.usd_amount)], false)
          | some _ =>
            let s2 := afterSignal { s1 with holding := true }
            (s2, [(cfg.symbol, "buy", cfg.usd_amount)],
             breakTest cfg.iterations s2.counter)
        else if short_ma < long_ma ∧ pl ≤ ps ∧ s.holding = true then
          match (place_market_order cfg.symbol "sell" cfg.usd_amount
                  inp.orderFetch inp.orderPost).2 with
          | none => (s1, [(cfg.symbol, "sell", cfg.usd_amount)], false)
          | some _ =>
            let s2 := afterSignal { s1 with holding := false }
            (s2, [(cfg.symbol, "sell", cfg.usd_amount)],
             breakTest cfg.iterations s2.counter)
        else
          let s2 := afterSignal s1
          (s2, [], breakTest cfg.iterations s2.counter)
      | _, _ =>
        let s2 := afterSignal s1
        (s2, [], breakTest cfg.iterations s2.counter)
    else
      let s2 : AutoState := { s1 with counter := s1.counter + 1 }
      (s2, [], breakTest cfg.iterations s2.counter)

/-- Runs `auto_trade` cycles over a finite trace of cycle inputs, stopping
early when `break` fires.  Returns the final state, all order calls in
order, and whether the loop terminated via `break` within the trace. -/
def autoRun (cfg : AutoConfig) : AutoState → List CycleInput →
    AutoState × List (String × String × ℚ) × Bool
  | s, [] => (s, [], false)
  | s, inp :: rest =>
    let r := autoCycle cfg s inp
    if r.2.2 then (r.1, r.2.1, true)
    else
      let r2 := autoRun cfg r.1 rest
      (r2.1, r.2.1 ++ r2.2.1, r2.2.2)

/-- `auto_trade` started from its initial state (auto_trader.py lines
109-112): empty history, unset previous pair, not holding, counter 0. -/
def auto_trade (cfg : AutoConfig) (inputs : List CycleInput) :
    AutoState × List (String × String × ℚ) × Bool :=
  autoRun cfg { prices := [], prev_short := none, prev_long := none,
                holding := false, counter := 0 } inputs

/-- The parameters of `predictive_trade` (predictive_trader.py lines
29-34); `interval` is not modelled. -/
structure PredConfig where
  symbol : String
  usd_amount : ℚ
  window : ℕ
  iterations : Option ℕ
deriving DecidableEq

/-- The mutable local state of `predictive_trade` (lines 37-39). -/
structure PredState where
  prices : List ℚ
  holding : Bool
  counter : ℕ
deriving DecidableEq

/-- One iteration of the `while True` body of `predictive_trade`
(predictive_trader.py lines 41-64), with the same exception discipline as
`autoCycle`. -/
def predCycle (cfg : PredConfig) (s : PredState) (inp : CycleInput) :
    PredState × List (String × String × ℚ) × Bool :=
  match fetch_price inp.loopFetch with
  | none => (s, [], false)
  | some price =>
    let prices := s.prices ++ [price]
    let s1 : PredState := { s with prices := prices }
    let direction := predict_trend prices cfg.window
    if 0 < direction ∧ s.holding = false then
      match (place_market_order cfg.symbol "buy" cfg.usd_amount
              inp.orderFetch inp.orderPost).2 with
      | none => (s1, [(cfg.symbol, "buy", cfg.usd_amount)], false)
      | some _ =>
        let s2 : PredState := { s1 with holding := true, counter := s1.counter + 1 }
        (s2, [(cfg.symbol, "buy", cfg.usd_amount)],
         breakTest cfg.iterations s2.counter)
    else if direction < 0 ∧ s.holding = true then
      match (place_market_order cfg.symbol "sell" cfg.usd_amount
              inp.orderFetch inp.orderPost).2 with
      | none => (s1, [(cfg.symbol, "sell", cfg.usd_amount)], false)
      | some _ =>
        let s2 : PredState := { s1 with holding := false, counter := s1.counter + 1 }
        (s2, [(cfg.symbol, "sell", cfg.usd_amount)],
         breakTest cfg.iterations s2.counter)
    else
      let s2 : PredState := { s1 with counter := s1.counter + 1 }
      (s2, [], breakTest cfg.iterations s2.counter)

/-- Runs `predictive_trade` cycles over a finite trace of cycle inputs. -/
def predRun (cfg : PredConfig) : PredState → List CycleInput →
    PredState × List (String × String × ℚ) × Bool
  | s, [] => (s, [], false)
  | s, inp :: rest =>
    let r := predCycle cfg s inp
    if r.2.2 then (r.1, r.2.1, true)
    else
      let r2 := predRun cfg r.1 rest
      (r2.1, r.2.1 ++ r2.2.1, r2.2.2)

/-- `predictive_trade` started from its initial state (predictive_trader.py
lines 37-39). -/
def predictive_trade (cfg : PredConfig) (inputs : List CycleInput) :
    PredState × List (String × String × ℚ) × Bool :=
  predRun cfg { prices := [], holding := false, counter := 0 } inputs

/-- An order-call trace alternates sides, the expected next side being
"buy" when the flag is `false` (Flat) and "sell" when `true` (Long). -/
def alternatesFrom : Bool → List (String × String × ℚ) → Bool
  | _, [] => true
  | false, o :: rest => o.2.1 = "buy" && alternatesFrom true rest
  | true, o :: rest => o.2.1 = "sell" && alternatesFrom false rest

/-- Restatement of the claimed per-cycle behaviour of the crossover loop,
following the claim's words (to be compared with `autoCycle`): given the
price appended this cycle, once the post-append history reaches
`long_window` the moving averages are the arithmetic means of the last
`short_window` resp. `long_window` prices, a buy fires exactly on an upward
cross from a previous non-crossed pair while Flat, a sell exactly on the
mirror condition while Long, a current-cycle tie never fires, the pair
(short_ma, long_ma) becomes the stored previous pair, and with insufficient
history nothing is emitted and the previous pair is untouched. -/
def crossoverCycleSpec (cfg : AutoConfig) (s : AutoState) (price : ℚ)
    (res : AutoState × List (String × String × ℚ) × Bool) : Prop :=
  let prices := s.prices ++ [price]
  let short_ma := mean (prices.drop (prices.length - cfg.short_window))
  let long_ma := mean (prices.drop (prices.length - cfg.long_window))
  (cfg.long_window ≤ prices.length →
    res.1.prices = prices ∧
    res.1.prev_short = some short_ma ∧
    res.1.prev_long = some long_ma ∧
    ((s.prev_short = none ∨ s.prev_long = none) → res.2.1 = []) ∧
    (s.prev_short.isSome = true → s.prev_long.isSome = true →
      ((res.2.1 = [(cfg.symbol, "buy", cfg.usd_amount)] ↔
          long_ma < short_ma ∧ s.prev_short.getD 0 ≤ s.prev_long.getD 0 ∧
            s.holding = false) ∧
       (res.2.1 = [(cfg.symbol, "sell", cfg.usd_amount)] ↔
          short_ma < long_ma ∧ s.prev_long.getD 0 ≤ s.prev_short.getD 0 ∧
            s.holding = true) ∧
       (short_ma = long_ma → res.2.1 = [])))) ∧
  (prices.length < cfg.long_window →
    res.2.1 = [] ∧ res.1.prev_short = s.prev_short ∧
    res.1.prev_long = s.prev_long ∧ res.1.prices = prices ∧
    res.1.holding = s.holding)

section Lemmas

/-- Python's `l[-n:]` is the `n`-element suffix once `n ≥ 1`. -/
theorem pyLast_eq_drop (n : ℕ) (l : List ℚ) (h : 1 ≤ n) :
    pyLast n l = l.drop (l.length - n) := by
  unfold pyLast
  rw [if_neg (by omega)]

/-- When the order-submission inputs are exception-free,
`place_market_order` returns a body. -/
theorem place_order_ok (sym side : String) (u : ℚ) (i : CycleInput)
    (h : i.orderOk = true) :
    ∃ b, (place_market_order sym side u i.orderFetch i.orderPost).2 = some b := by
  unfold CycleInput.orderOk at h
  rw [Bool.and_eq_true] at h
  obtain ⟨h1, h2⟩ := h
  unfold place_market_order
  cases hf : fetch_price i.orderFetch with
  | none => rw [hf] at h1; simp at h1
  | some p =>
    have hpost : i.orderPost = PostOutcome.ok := by
      cases hp : i.orderPost with
      | ok => rfl
      | netErr => rw [hp] at h2; simp at h2
    rw [hpost]
    exact ⟨_, rfl⟩

/-- When the order-submission inputs raise, `place_market_order` returns no
body (the exception propagates to the caller). -/
theorem place_order_raises (sym side : String) (u : ℚ) (i : CycleInput)
    (h : i.orderOk = false) :
    (place_market_order sym side u i.orderFetch i.orderPost).2 = none := by
  unfold CycleInput.orderOk at h
  unfold place_market_order
  cases hf : fetch_price i.orderFetch with
  | none => rfl
  | some p =>
    rw [hf] at h
    simp only [Option.isSome_some, Bool.true_and] at h
    cases hp : i.orderPost with
    | ok => rw [hp] at h; simp at h
    | netErr => rfl

/-- The body returned by a successful `place_market_order` call carries the
given side and symbol and the 8-decimal-formatted quantity computed from
the ask price of the first quote result. -/
theorem place_order_body (sym side : String) (u : ℚ) (r : QuoteResult)
    (rs : List QuoteResult) (post : PostOutcome) (b : OrderBody)
    (hb : (place_market_order sym side u (FetchOutcome.ok ⟨r :: rs⟩) post).2 =
      some b) :
    b = ⟨side, sym, "market", format8 (u / r.ask_inclusive_of_buy_spread)⟩ := by
  unfold place_market_order fetch_price at hb
  cases post with
  | ok =>
    simp only [List.head?, Option.map_some] at hb
    exact (Option.some_inj.mp hb).symm
  | netErr => simp at hb

/-- The 8-decimal rounding moves a value by at most half of 10^-8. -/
theorem format8_close (x : ℚ) : |format8 x - x| ≤ 1 / 200000000 := by
  have h1 : ((Int.floor (x * 100000000 + 1/2) : ℤ) : ℚ) ≤ x * 100000000 + 1/2 :=
    Int.floor_le _
  have h2 : x * 100000000 + 1/2 - 1 < ((Int.floor (x * 100000000 + 1/2) : ℤ) : ℚ) :=
    Int.sub_one_lt_floor _
  rw [abs_le]
  unfold format8
  constructor
  · linarith
  · linarith

end Lemmas

/-- C6: for every price list and window ≥ 1, `predict_trend` returns Hold
(0) when the history is shorter than the window; otherwise it returns Buy
(1) iff the latest price exceeds the price `window` samples back, Sell (-1)
iff it is below it, and Hold (0) exactly on a tie; and the result depends
only on those two endpoint samples, never on the samples between them. -/
theorem predict_trend_spec (prices qs : List ℚ) (window : ℕ)
    (hw : 1 ≤ window) :
    (prices.length < window → predict_trend prices window = 0) ∧
    (window ≤ prices.length →
      ((predict_trend prices window = 1 ↔
          prices.getD (prices.length - window) 0 <
            prices.getD (prices.length - 1) 0) ∧
       (predict_trend prices window = -1 ↔
          prices.getD (prices.length - 1) 0 <
            prices.getD (prices.length - window) 0) ∧
       (predict_trend prices window = 0 ↔
          prices.getD (prices.length - 1) 0 =
            prices.getD (prices.length - window) 0))) ∧
    (qs.length = prices.length →
      qs.getD (qs.length - 1) 0 = prices.getD (prices.length - 1) 0 →
      qs.getD (qs.length - window) 0 = prices.getD (prices.length - window) 0 →
      predict_trend qs window = predict_trend prices window) := by
  refine ⟨?_, ?_, ?_⟩
  · intro h
    simp [predict_trend, h]
  · intro h
    have hnl : ¬ prices.length < window := by omega
    have hval : predict_trend prices window =
        (if prices.getD (prices.length - window) 0 <
            prices.getD (prices.length - 1) 0 then 1
         else if prices.getD (prices.length - 1) 0 <
            prices.getD (prices.length - window) 0 then (-1)
         else 0) := by
      simp only [predict_trend, if_neg hnl]
    rw [hval]
    rcases lt_trichotomy (prices.getD (prices.length - window) 0)
        (prices.getD (prices.length - 1) 0) with hc | hc | hc
    · rw [if_pos hc]
      refine ⟨⟨fun _ => hc, fun _ => rfl⟩, ?_, ?_⟩
      · constructor
        · intro h1; exact absurd h1 (by decide)
        · intro h1; exact absurd (lt_trans hc h1) (lt_irrefl _)
      · constructor
        · intro h1; exact absurd h1 (by decide)
        · intro h1; exact absurd h1 (ne_of_gt hc)
    · rw [if_neg (by rw [hc]; exact lt_irrefl _),
        if_neg (by rw [hc]; exact lt_irrefl _)]
      refine ⟨?_, ?_, ⟨fun _ => hc.symm, fun _ => rfl⟩⟩
      · constructor
        · intro h1; exact absurd h1 (by decide)
        · intro h1; exact absurd h1 (by rw [hc]; exact lt_irrefl _)
      · constructor
        · intro h1; exact absurd h1 (by decide)
        · intro h1; exact absurd h1 (by rw [hc]; exact lt_irrefl _)
    · rw [if_neg (fun h1 => absurd (lt_trans hc h1) (lt_irrefl _)), if_pos hc]
      refine ⟨?_, ⟨fun _ => hc, fun _ => rfl⟩, ?_⟩
      · constructor
        · intro h1; exact absurd h1 (by decide)
        · intro h1; exact absurd (lt_trans hc h1) (lt_irrefl _)
      · constructor
        · intro h1; exact absurd h1 (by decide)
        · intro h1; exact absurd h1 (ne_of_lt hc)
  · intro hlen hlast hfirst
    simp only [predict_trend]
    rw [hlast, hfirst, hlen]

/-- C6 witness: `predict_trend [3, 1, 2] 2` is Buy, via the iff of the
theorem, and `[7, 1, 2]` with the same endpoints gives the same signal. -/
theorem predict_trend_spec_witness :
    predict_trend [3, 1, 2] 2 = 1 ∧
    predict_trend [7, 1, 2] 2 = predict_trend [3, 1, 2] 2 :=
  ⟨((predict_trend_spec [3, 1, 2] [7, 1, 2] 2 (by decide)).2.1
      (by decide)).1.mpr (by decide),
   (predict_trend_spec [3, 1, 2] [7, 1, 2] 2 (by decide)).2.2
      (by decide) (by decide) (by decide)⟩

/-- C4: a cycle whose price fetch raises is fully abandoned without
raising out of the loop: no price is appended, the previous moving-average
pair and the position are untouched, no order call happens, and the run
simply continues with the next cycle (in both loops). -/
theorem fetch_failure_skips_cycle (cfgA : AutoConfig) (s : AutoState)
    (cfgP : PredConfig) (sp : PredState) (inp : CycleInput)
    (rest : List CycleInput)
    (h : fetch_price inp.loopFetch = none) :
    autoCycle cfgA s inp = (s, [], false) ∧
    autoRun cfgA s (inp :: rest) = autoRun cfgA s rest ∧
    predCycle cfgP sp inp = (sp, [], false) ∧
    predRun cfgP sp (inp :: rest) = predRun cfgP sp rest := by
  have ha : autoCycle cfgA s inp = (s, [], false) := by
    unfold autoCycle
    rw [h]
  have hp : predCycle cfgP sp inp = (sp, [], false) := by
    unfold predCycle
    rw [h]
  refine ⟨ha, ?_, hp, ?_⟩
  · show (if (autoCycle cfgA s inp).2.2 then _ else _) = _
    rw [ha]
    simp
  · show (if (predCycle cfgP sp inp).2.2 then _ else _) = _
    rw [hp]
    simp

/-- C4 witness: a concrete failed-fetch cycle of each loop leaves the
state untouched and emits nothing. -/
theorem fetch_failure_skips_cycle_witness :
    autoCycle ⟨"BTC-USD", 5, 3, 7, none⟩ ⟨[10], some 1, some 2, true, 4⟩
        ⟨FetchOutcome.netErr, FetchOutcome.netErr, PostOutcome.ok⟩ =
      (⟨[10], some 1, some 2, true, 4⟩, [], false) ∧
    predCycle ⟨"BTC-USD", 5, 5, none⟩ ⟨[10, 11], true, 2⟩
        ⟨FetchOutcome.netErr, FetchOutcome.netErr, PostOutcome.ok⟩ =
      (⟨[10, 11], true, 2⟩, [], false) := by
  have h := fetch_failure_skips_cycle ⟨"BTC-USD", 5, 3, 7, none⟩
    ⟨[10], some 1, some 2, true, 4⟩ ⟨"BTC-USD", 5, 5, none⟩ ⟨[10, 11], true, 2⟩
    ⟨FetchOutcome.netErr, FetchOutcome.netErr, PostOutcome.ok⟩ [] rfl
  exact ⟨h.1, h.2.2.1⟩

/-- C3 counterexample: a concrete `predictive_trade` cycle fires an
actionable Buy whose `place_market_order` submission fails, and the
resulting position is still Flat (`holding = false`), not Long: the code
transitions position only after a submission that did not raise, so a
failed buy does NOT leave the loop believing it is Long. -/
theorem failed_order_position_cx :
    (predCycle ⟨"BTC-USD", 5, 2, none⟩ ⟨[10], false, 0⟩
      ⟨FetchOutcome.ok ⟨[⟨11, 11⟩]⟩, FetchOutcome.ok ⟨[⟨11, 11⟩]⟩,
       PostOutcome.netErr⟩).2.1 = [("BTC-USD", "buy", 5)] ∧
    (predCycle ⟨"BTC-USD", 5, 2, none⟩ ⟨[10], false, 0⟩
      ⟨FetchOutcome.ok ⟨[⟨11, 11⟩]⟩, FetchOutcome.ok ⟨[⟨11, 11⟩]⟩,
       PostOutcome.netErr⟩).1.holding = false := by
  constructor <;> rfl

/-- C3 amended: in either loop, a cycle whose order submission raises
(failed order fetch or failed POST) leaves the position unchanged: a
failed buy leaves Position = Flat and a failed sell leaves
Position = Long, because the `holding` assignment sits after the
`place_market_order` call inside the `try` block. -/
theorem failed_order_leaves_position (cfgA : AutoConfig) (s : AutoState)
    (cfgP : PredConfig) (sp : PredState) (inp : CycleInput)
    (h : inp.orderOk = false) :
    (autoCycle cfgA s inp).1.holding = s.holding ∧
    (predCycle cfgP sp inp).1.holding = sp.holding := by
  have hbuyA := place_order_raises cfgA.symbol "buy" cfgA.usd_amount inp h
  have hsellA := place_order_raises cfgA.symbol "sell" cfgA.usd_amount inp h
  have hbuyP := place_order_raises cfgP.symbol "buy" cfgP.usd_amount inp h
  have hsellP := place_order_raises cfgP.symbol "sell" cfgP.usd_amount inp h
  constructor
  · unfold autoCycle
    cases hf : fetch_price inp.loopFetch with
    | none => rfl
    | some price =>
      simp only [hbuyA, hsellA]
      rcases s.prev_short with _ | ps <;> rcases s.prev_long with _ | pl <;>
        dsimp only <;> split_ifs <;> rfl
  · unfold predCycle
    cases hf : fetch_price inp.loopFetch with
    | none => rfl
    | some price =>
      simp only [hbuyP, hsellP]
      split_ifs <;> rfl

/-- C3 amended witness: a concrete failed buy in each loop leaves the
position flag exactly as it was. -/
theorem failed_order_leaves_position_witness :
    (autoCycle ⟨"BTC-USD", 5, 1, 2, none⟩ ⟨[10], some 1, some 2, false, 0⟩
      ⟨FetchOutcome.ok ⟨[⟨20, 19⟩]⟩, FetchOutcome.netErr,
       PostOutcome.ok⟩).1.holding = false ∧
    (predCycle ⟨"BTC-USD", 5, 2, none⟩ ⟨[10], false, 0⟩
      ⟨FetchOutcome.ok ⟨[⟨20, 19⟩]⟩, FetchOutcome.netErr,
       PostOutcome.ok⟩).1.holding = false :=
  failed_order_leaves_position ⟨"BTC-USD", 5, 1, 2, none⟩
    ⟨[10], some 1, some 2, false, 0⟩ ⟨"BTC-USD", 5, 2, none⟩ ⟨[10], false, 0⟩
    ⟨FetchOutcome.ok ⟨[⟨20, 19⟩]⟩, FetchOutcome.netErr, PostOutcome.ok⟩ rfl

/-- C7 counterexample: a call with usd_amount = -1 ≤ 0 is not rejected:
its very first step is the network GET of the quote, and the order is
POSTed and succeeds, so no validation error is surfaced before a network
request. -/
theorem order_validation_cx :
    (place_market_order "BTC-USD" "buy" (-1)
      (FetchOutcome.ok ⟨[⟨100, 99⟩]⟩) PostOutcome.ok).1.head? =
      some (NetAction.getQuote "BTC-USD") ∧
    (place_market_order "BTC-USD" "buy" (-1)
      (FetchOutcome.ok ⟨[⟨100, 99⟩]⟩) PostOutcome.ok).2.isSome = true := by
  constructor <;> rfl

/-- C7 amended: `place_market_order` performs no client-side validation at
all: for every side string (supported or not) and every usd_amount
(positive or not), the first thing the call does is the quote-fetch
network request, and on a successful fetch it POSTs the order body with
the given side and the quantity computed from the unvalidated amount; any
rejection can only come from the remote API. -/
theorem place_market_order_no_validation (symbol side : String) (u : ℚ)
    (f : FetchOutcome) (post : PostOutcome) (r : QuoteResult)
    (rs : List QuoteResult) :
    (place_market_order symbol side u f post).1.head? =
      some (NetAction.getQuote symbol) ∧
    (place_market_order symbol side u (FetchOutcome.ok ⟨r :: rs⟩) post).1 =
      [NetAction.getQuote symbol,
       NetAction.postOrder
         ⟨side, symbol, "market", format8 (u / r.ask_inclusive_of_buy_spread)⟩] := by
  constructor
  · unfold place_market_order
    cases hf : fetch_price f with
    | none => rfl
    | some p => cases post <;> rfl
  · unfold place_market_order fetch_price
    cases post <;> rfl

/-- C8 counterexample: with a seed that decodes to 3 bytes (not the
required 32), process start (the module top level) still succeeds — the
failure is raised only inside `generate_signature`, i.e. at the first
signed request, contradicting fail-fast-at-startup. -/
theorem seed_length_startup_cx :
    moduleInit ⟨some "key", some "AAAA", some "http"⟩ =
      Except.ok ⟨some "key", some "AAAA", some "http"⟩ ∧
    (generate_signature [0, 0, 0] "key" "0" "/api" "GET" "").isOk = false := by
  constructor <;> rfl

/-- C8 amended: process start (module initialization) never fails,
whatever the configured key material is; the seed-length check lives in
`generate_signature` (the `SigningKey` construction), which succeeds
exactly when the decoded seed is 32 bytes — so a wrong-length seed
surfaces at the first signed request, not at startup. -/
theorem seed_validated_at_signing (e : Env) (seed : List ℕ)
    (a t p m b : String) :
    (moduleInit e).isOk = true ∧
    ((generate_signature seed a t p m b).isOk = true ↔ seed.length = 32) := by
  constructor
  · rfl
  · unfold generate_signature SigningKey_init
    by_cases h : seed.length = 32
    · rw [if_pos h]
      simp [h, Except.isOk, Except.toBool]
    · rw [if_neg h]
      simp [h, Except.isOk, Except.toBool]

/-- C9 counterexample: with fetched price p = 10^9 > 0 and
usd_amount = 1 > 0, the 8-decimal-formatted quantity of the constructed
order is 0, so |quantity * price - usd_amount| = 1, which is not below
10^-6: the claimed tolerance fails for large prices. -/
theorem quantity_roundtrip_cx :
    (place_market_order "BTC-USD" "buy" 1
      (FetchOutcome.ok ⟨[⟨1000000000, 999999999⟩]⟩) PostOutcome.ok).2 =
      some ⟨"buy", "BTC-USD", "market", 0⟩ ∧
    ¬ |(0 : ℚ) * 1000000000 - 1| < 1 / 1000000 := by
  constructor
  · unfold place_market_order fetch_price
    norm_num [format8]
  · rw [abs_sub_comm]
    norm_num

/-- C9 amended: for every order constructed by `place_market_order` with
fetched price p > 0 and usd_amount u > 0, the 8-decimal-formatted quantity
q satisfies |q * p - u| ≤ p / (2 * 10^8); in particular the originally
claimed strict 10^-6 bound holds whenever p < 200 (and only then is it
guaranteed). -/
theorem quantity_roundtrip_bound (symbol side : String) (u p bid : ℚ)
    (rs : List QuoteResult) (post : PostOutcome) (b : OrderBody)
    (hp : 0 < p) (hu : 0 < u)
    (hb : (place_market_order symbol side u
      (FetchOutcome.ok ⟨⟨p, bid⟩ :: rs⟩) post).2 = some b) :
    |b.asset_quantity * p - u| ≤ p / 200000000 ∧
    (p < 200 → |b.asset_quantity * p - u| < 1 / 1000000) := by
  have hbody := place_order_body symbol side u ⟨p, bid⟩ rs post b hb
  have hq : b.asset_quantity = format8 (u / p) := by rw [hbody]
  have hpne : p ≠ 0 := ne_of_gt hp
  have hkey : b.asset_quantity * p - u = (format8 (u / p) - u / p) * p := by
    rw [hq, sub_mul, div_mul_cancel₀ u hpne]
  have hclose := format8_close (u / p)
  have hbound : |b.asset_quantity * p - u| ≤ p / 200000000 := by
    rw [hkey, abs_mul, abs_of_pos hp]
    calc |format8 (u / p) - u / p| * p ≤ (1 / 200000000) * p :=
          mul_le_mul_of_nonneg_right hclose (le_of_lt hp)
      _ = p / 200000000 := by ring
  refine ⟨hbound, fun h200 => lt_of_le_of_lt hbound ?_⟩
  have h1 : p / 200000000 < 200 / 200000000 := by linarith
  have h2 : (200 : ℚ) / 200000000 = 1 / 1000000 := by norm_num
  rw [← h2]
  exact h1

/-- C10: the quantity of every order, buys and sells alike, is computed
from the ask price (`ask_inclusive_of_buy_spread`) of the first result of
a fresh quote fetch; the bid field is never read — changing every bid (and
the whole tail of the result list) leaves the call's behaviour unchanged. -/
theorem order_path_reads_only_ask (symbol side : String) (u : ℚ)
    (r r2 : QuoteResult) (rs rs2 : List QuoteResult) (post : PostOutcome)
    (b : OrderBody)
    (hask : r2.ask_inclusive_of_buy_spread = r.ask_inclusive_of_buy_spread)
    (hb : (place_market_order symbol side u
      (FetchOutcome.ok ⟨r :: rs⟩) post).2 = some b) :
    place_market_order symbol side u (FetchOutcome.ok ⟨r2 :: rs2⟩) post =
      place_market_order symbol side u (FetchOutcome.ok ⟨r :: rs⟩) post ∧
    b.asset_quantity = format8 (u / r.ask_inclusive_of_buy_spread) ∧
    fetch_price (FetchOutcome.ok ⟨r :: rs⟩) =
      some r.ask_inclusive_of_buy_spread := by
  refine ⟨?_, ?_, rfl⟩
  · unfold place_market_order fetch_price
    simp [hask]
  · rw [place_order_body symbol side u r rs post b hb]

/-- C9 amended witness: a concrete successful order at price 100 and
usd_amount 5 satisfies both bounds. -/
theorem quantity_roundtrip_bound_witness :
    |(format8 (5 / 100) : ℚ) * 100 - 5| ≤ 100 / 200000000 ∧
    ((100 : ℚ) < 200 → |(format8 (5 / 100) : ℚ) * 100 - 5| < 1 / 1000000) := by
  have h := quantity_roundtrip_bound "BTC-USD" "buy" 5 100 99 [] PostOutcome.ok
    ⟨"buy", "BTC-USD", "market", format8 (5 / 100)⟩ (by norm_num) (by norm_num) rfl
  exact h

/-- C10 witness: a concrete sell order reads only the ask of the first
quote result: replacing the bid and the tail changes nothing, and the
quantity comes from the ask. -/
theorem order_path_reads_only_ask_witness :
    place_market_order "BTC-USD" "sell" 5
        (FetchOutcome.ok ⟨[⟨100, 1⟩]⟩) PostOutcome.ok =
      place_market_order "BTC-USD" "sell" 5
        (FetchOutcome.ok ⟨[⟨100, 99⟩, ⟨7, 7⟩]⟩) PostOutcome.ok ∧
    (⟨"sell", "BTC-USD", "market", format8 (5 / 100)⟩ : OrderBody).asset_quantity =
      format8 ((5 : ℚ) / 100) := by
  have h := order_path_reads_only_ask "BTC-USD" "sell" 5 ⟨100, 99⟩ ⟨100, 1⟩
    [⟨7, 7⟩] [] PostOutcome.ok ⟨"sell", "BTC-USD", "market", format8 (5 / 100)⟩
    rfl rfl
  exact ⟨h.1, h.2.1⟩

/-- C1 counterexample: a cycle with sufficient post-append history fires a
Buy whose order submission raises; the exception skips the
`prev_short`/`prev_long` assignment, so the pair does NOT become the
current (short_ma, long_ma) — contradicting the claim that it is updated
after evaluation regardless.  Here short_ma = 20 but prev_short stays 1. -/
theorem crossover_prev_pair_cx :
    (autoCycle ⟨"BTC-USD", 5, 1, 2, none⟩ ⟨[10], some 1, some 2, false, 0⟩
      ⟨FetchOutcome.ok ⟨[⟨20, 19⟩]⟩, FetchOutcome.ok ⟨[⟨20, 19⟩]⟩,
       PostOutcome.netErr⟩).2.1 = [("BTC-USD", "buy", 5)] ∧
    mean (pyLast 1 ((10 : ℚ) :: [20])) = 20 ∧
    (autoCycle ⟨"BTC-USD", 5, 1, 2, none⟩ ⟨[10], some 1, some 2, false, 0⟩
      ⟨FetchOutcome.ok ⟨[⟨20, 19⟩]⟩, FetchOutcome.ok ⟨[⟨20, 19⟩]⟩,
       PostOutcome.netErr⟩).1.prev_short ≠ some 20 := by
  refine ⟨?_, ?_, ?_⟩
  · norm_num [autoCycle, fetch_price, mean, pyLast, place_market_order]
  · norm_num [mean, pyLast]
  · norm_num [autoCycle, fetch_price, mean, pyLast, place_market_order]

/-- C1 amended: every exception-free cycle of `auto_trade` (successful
price fetch, and successful submission should an order fire) satisfies the
claimed crossover behaviour: with post-append history of length ≥
long_window the moving averages are the means of the last short_window and
long_window prices, no signal on an unset previous pair, buy iff
short_ma > long_ma ∧ prev_short ≤ prev_long ∧ Flat, sell iff
short_ma < long_ma ∧ prev_long ≤ prev_short ∧ Long, a current tie never
fires, and (short_ma, long_ma) become the stored previous pair; with
shorter history nothing is emitted and the pair is untouched.  (When the
order submission raises, the pair update is skipped — see the
counterexample — which is the only amendment to the original claim.) -/
theorem crossover_cycle_spec_holds (cfg : AutoConfig) (s : AutoState)
    (i : CycleInput) (price : ℚ)
    (hf : fetch_price i.loopFetch = some price) (ho : i.orderOk = true)
    (hsw : 1 ≤ cfg.short_window) (hlw : 1 ≤ cfg.long_window) :
    crossoverCycleSpec cfg s price (autoCycle cfg s i) := by
  obtain ⟨bbuy, hbuy⟩ := place_order_ok cfg.symbol "buy" cfg.usd_amount i ho
  obtain ⟨bsell, hsell⟩ := place_order_ok cfg.symbol "sell" cfg.usd_amount i ho
  simp only [crossoverCycleSpec, autoCycle, hf,
    pyLast_eq_drop cfg.short_window (s.prices ++ [price]) hsw,
    pyLast_eq_drop cfg.long_window (s.prices ++ [price]) hlw,
    hbuy, hsell]
  by_cases hlen : cfg.long_window ≤ (s.prices ++ [price]).length
  · simp only [if_pos hlen]
    refine ⟨fun _ => ?_, fun hlt => absurd hlt (by omega)⟩
    rcases hps : s.prev_short with _ | ps <;>
      rcases hpl : s.prev_long with _ | pl <;> dsimp only
    · simp
    · simp
    · simp
    · set S := mean ((s.prices ++ [price]).drop
        ((s.prices ++ [price]).length - cfg.short_window)) with hS
      set L := mean ((s.prices ++ [price]).drop
        ((s.prices ++ [price]).length - cfg.long_window)) with hL
      by_cases hb : L < S ∧ ps ≤ pl ∧ s.holding = false
      · simp only [if_pos hb]
        simp [hb.1, hb.2.1, hb.2.2, not_lt_of_gt hb.1, ne_of_gt hb.1]
      · simp only [if_neg hb]
        by_cases hsc : S < L ∧ pl ≤ ps ∧ s.holding = true
        · simp only [if_pos hsc]
          simp [hsc.1, hsc.2.1, hsc.2.2, not_lt_of_gt hsc.1, ne_of_lt hsc.1]
        · simp only [if_neg hsc]
          simp [hb, hsc]
  · simp only [if_neg hlen]
    exact ⟨fun hcon => absurd hcon hlen, fun _ => by simp⟩

/-- C1 amended witness: a concrete exception-free cycle (history [10],
previous pair (1, 2), price 20, windows 1 and 2) satisfies the crossover
cycle specification. -/
theorem crossover_cycle_spec_holds_witness :
    crossoverCycleSpec ⟨"BTC-USD", 5, 1, 2, none⟩
      ⟨[10], some 1, some 2, false, 0⟩ 20
      (autoCycle ⟨"BTC-USD", 5, 1, 2, none⟩ ⟨[10], some 1, some 2, false, 0⟩
        ⟨FetchOutcome.ok ⟨[⟨20, 19⟩]⟩, FetchOutcome.ok ⟨[⟨20, 19⟩]⟩,
         PostOutcome.ok⟩) :=
  crossover_cycle_spec_holds ⟨"BTC-USD", 5, 1, 2, none⟩
    ⟨[10], some 1, some 2, false, 0⟩
    ⟨FetchOutcome.ok ⟨[⟨20, 19⟩]⟩, FetchOutcome.ok ⟨[⟨20, 19⟩]⟩,
     PostOutcome.ok⟩ 20 rfl rfl (by decide) (by decide)

/-- With an exception-free order input, one `auto_trade` cycle either
emits no order and keeps the position, or emits exactly one buy from Flat
ending Long, or exactly one sell from Long ending Flat. -/
theorem autoCycle_orders (cfg : AutoConfig) (s : AutoState) (i : CycleInput)
    (ho : i.orderOk = true) :
    ((autoCycle cfg s i).2.1 = [] ∧ (autoCycle cfg s i).1.holding = s.holding) ∨
    ((autoCycle cfg s i).2.1 = [(cfg.symbol, "buy", cfg.usd_amount)] ∧
      s.holding = false ∧ (autoCycle cfg s i).1.holding = true) ∨
    ((autoCycle cfg s i).2.1 = [(cfg.symbol, "sell", cfg.usd_amount)] ∧
      s.holding = true ∧ (autoCycle cfg s i).1.holding = false) := by
  obtain ⟨bbuy, hbuy⟩ := place_order_ok cfg.symbol "buy" cfg.usd_amount i ho
  obtain ⟨bsell, hsell⟩ := place_order_ok cfg.symbol "sell" cfg.usd_amount i ho
  unfold autoCycle
  cases hfo : fetch_price i.loopFetch with
  | none => exact Or.inl (by simp)
  | some price =>
    simp only [hbuy, hsell]
    by_cases hlen : cfg.long_window ≤ (s.prices ++ [price]).length
    · simp only [if_pos hlen]
      rcases s.prev_short with _ | ps <;> rcases s.prev_long with _ | pl <;>
        dsimp only
      · exact Or.inl (by simp)
      · exact Or.inl (by simp)
      · exact Or.inl (by simp)
      · split_ifs with hb hsc
        · exact Or.inr (Or.inl (by simp [hb.2.2]))
        · exact Or.inr (Or.inr (by simp [hsc.2.2]))
        · exact Or.inl (by simp)
    · simp only [if_neg hlen]
      exact Or.inl (by simp)

/-- With an exception-free order input, one `predictive_trade` cycle either
emits no order and keeps the position, or emits exactly one buy from Flat
ending Long, or exactly one sell from Long ending Flat. -/
theorem predCycle_orders (cfg : PredConfig) (s : PredState) (i : CycleInput)
    (ho : i.orderOk = true) :
    ((predCycle cfg s i).2.1 = [] ∧ (predCycle cfg s i).1.holding = s.holding) ∨
    ((predCycle cfg s i).2.1 = [(cfg.symbol, "buy", cfg.usd_amount)] ∧
      s.holding = false ∧ (predCycle cfg s i).1.holding = true) ∨
    ((predCycle cfg s i).2.1 = [(cfg.symbol, "sell", cfg.usd_amount)] ∧
      s.holding = true ∧ (predCycle cfg s i).1.holding = false) := by
  obtain ⟨bbuy, hbuy⟩ := place_order_ok cfg.symbol "buy" cfg.usd_amount i ho
  obtain ⟨bsell, hsell⟩ := place_order_ok cfg.symbol "sell" cfg.usd_amount i ho
  unfold predCycle
  cases hfo : fetch_price i.loopFetch with
  | none => exact Or.inl (by simp)
  | some price =>
    simp only [hbuy, hsell]
    split_ifs with hb hsc
    · exact Or.inr (Or.inl (by simp [hb.2]))
    · exact Or.inr (Or.inr (by simp [hsc.2]))
    · exact Or.inl (by simp)

/-- Over any exception-free input trace, the orders of `autoRun` alternate
starting from the current position. -/
theorem autoRun_alternates (cfg : AutoConfig) :
    ∀ (inputs : List CycleInput) (s : AutoState),
      (∀ j ∈ inputs, j.orderOk = true) →
      alternatesFrom s.holding (autoRun cfg s inputs).2.1 = true := by
  intro inputs
  induction inputs with
  | nil => intro s _; cases s.holding <;> rfl
  | cons i rest ih =>
    intro s h
    have hi : i.orderOk = true := h i (List.mem_cons_self i rest)
    have hrest : ∀ j ∈ rest, j.orderOk = true :=
      fun j hj => h j (List.mem_cons_of_mem i hj)
    simp only [autoRun]
    rcases autoCycle_orders cfg s i hi with ⟨h1, h2⟩ | ⟨h1, h2, h3⟩ | ⟨h1, h2, h3⟩ <;>
      by_cases ht : (autoCycle cfg s i).2.2 <;>
      simp only [if_pos, if_neg, ht, if_true, if_false, h1]
    · simp [alternatesFrom]
    · have := ih (autoCycle cfg s i).1 hrest
      rw [h2] at this
      simpa using this
    · rw [h2]
      simp [alternatesFrom]
    · rw [h2]
      have := ih (autoCycle cfg s i).1 hrest
      rw [h3] at this
      simp [alternatesFrom, this]
    · rw [h2]
      simp [alternatesFrom]
    · rw [h2]
      have := ih (autoCycle cfg s i).1 hrest
      rw [h3] at this
      simp [alternatesFrom, this]

/-- Over any exception-free input trace, the orders of `predRun` alternate
starting from the current position. -/
theorem predRun_alternates (cfg : PredConfig) :
    ∀ (inputs : List CycleInput) (s : PredState),
      (∀ j ∈ inputs, j.orderOk = true) →
      alternatesFrom s.holding (predRun cfg s inputs).2.1 = true := by
  intro inputs
  induction inputs with
  | nil => intro s _; cases s.holding <;> rfl
  | cons i rest ih =>
    intro s h
    have hi : i.orderOk = true := h i (List.mem_cons_self i rest)
    have hrest : ∀ j ∈ rest, j.orderOk = true :=
      fun j hj => h j (List.mem_cons_of_mem i hj)
    simp only [predRun]
    rcases predCycle_orders cfg s i hi with ⟨h1, h2⟩ | ⟨h1, h2, h3⟩ | ⟨h1, h2, h3⟩ <;>
      by_cases ht : (predCycle cfg s i).2.2 <;>
      simp only [if_pos, if_neg, ht, if_true, if_false, h1]
    · simp [alternatesFrom]
    · have := ih (predCycle cfg s i).1 hrest
      rw [h2] at this
      simpa using this
    · rw [h2]
      simp [alternatesFrom]
    · rw [h2]
      have := ih (predCycle cfg s i).1 hrest
      rw [h3] at this
      simp [alternatesFrom, this]
    · rw [h2]
      simp [alternatesFrom]
    · rw [h2]
      have := ih (predCycle cfg s i).1 hrest
      rw [h3] at this
      simp [alternatesFrom, this]

/-- C2 counterexample: in `predictive_trade` with window 2 and rising
prices, the first buy submission fails (POST error), so the position stays
Flat and the next cycle submits a second buy: two consecutive buy order
submissions with no intervening sell, violating strict alternation. -/
theorem orders_alternate_cx :
    (predictive_trade ⟨"BTC-USD", 5, 2, none⟩
      [⟨FetchOutcome.ok ⟨[⟨10, 10⟩]⟩, FetchOutcome.ok ⟨[⟨10, 10⟩]⟩,
        PostOutcome.ok⟩,
       ⟨FetchOutcome.ok ⟨[⟨11, 11⟩]⟩, FetchOutcome.ok ⟨[⟨11, 11⟩]⟩,
        PostOutcome.netErr⟩,
       ⟨FetchOutcome.ok ⟨[⟨12, 12⟩]⟩, FetchOutcome.ok ⟨[⟨12, 12⟩]⟩,
        PostOutcome.ok⟩]).2.1 =
      [("BTC-USD", "buy", 5), ("BTC-USD", "buy", 5)] := by
  decide

/-- C2 amended: starting Flat, in any run of either loop in which every
order submission succeeds, a buy is submitted only when Flat and is
followed by Long, a sell only when Long and is followed by Flat, so the
submitted orders strictly alternate buy, sell, buy, ...  (When a
submission raises, the position is unchanged and the next actionable
signal may repeat the same side — see the counterexample.) -/
theorem gated_orders_alternate (cfgA : AutoConfig) (inputsA : List CycleInput)
    (cfgP : PredConfig) (inputsP : List CycleInput)
    (hA : ∀ j ∈ inputsA, j.orderOk = true)
    (hP : ∀ j ∈ inputsP, j.orderOk = true) :
    alternatesFrom false (auto_trade cfgA inputsA).2.1 = true ∧
    alternatesFrom false (predictive_trade cfgP inputsP).2.1 = true :=
  ⟨autoRun_alternates cfgA inputsA ⟨[], none, none, false, 0⟩ hA,
   predRun_alternates cfgP inputsP ⟨[], false, 0⟩ hP⟩

/-- C2 amended witness: concrete all-successful runs of both loops have
alternating orders. -/
theorem gated_orders_alternate_witness :
    alternatesFrom false (auto_trade ⟨"BTC-USD", 5, 1, 2, none⟩
      [⟨FetchOutcome.ok ⟨[⟨10, 10⟩]⟩, FetchOutcome.ok ⟨[⟨10, 10⟩]⟩,
        PostOutcome.ok⟩,
       ⟨FetchOutcome.ok ⟨[⟨11, 11⟩]⟩, FetchOutcome.ok ⟨[⟨11, 11⟩]⟩,
        PostOutcome.ok⟩]).2.1 = true ∧
    alternatesFrom false (predictive_trade ⟨"BTC-USD", 5, 2, none⟩
      [⟨FetchOutcome.ok ⟨[⟨10, 10⟩]⟩, FetchOutcome.ok ⟨[⟨10, 10⟩]⟩,
        PostOutcome.ok⟩,
       ⟨FetchOutcome.ok ⟨[⟨11, 11⟩]⟩, FetchOutcome.ok ⟨[⟨11, 11⟩]⟩,
        PostOutcome.ok⟩]).2.1 = true :=
  gated_orders_alternate ⟨"BTC-USD", 5, 1, 2, none⟩ _ ⟨"BTC-USD", 5, 2, none⟩ _
    (by decide) (by decide)

/-- An exception-free `auto_trade` cycle increments the counter by exactly
one and breaks exactly when the incremented counter reaches the bound. -/
theorem autoCycle_ok_counter (cfg : AutoConfig) (s : AutoState)
    (i : CycleInput) (h : i.ok = true) :
    (autoCycle cfg s i).1.counter = s.counter + 1 ∧
    (autoCycle cfg s i).2.2 = breakTest cfg.iterations (s.counter + 1) := by
  unfold CycleInput.ok at h
  rw [Bool.and_eq_true] at h
  obtain ⟨h1, ho⟩ := h
  obtain ⟨price, hp⟩ := Option.isSome_iff_exists.mp h1
  obtain ⟨bbuy, hbuy⟩ := place_order_ok cfg.symbol "buy" cfg.usd_amount i ho
  obtain ⟨bsell, hsell⟩ := place_order_ok cfg.symbol "sell" cfg.usd_amount i ho
  unfold autoCycle
  rw [hp]
  simp only [hbuy, hsell]
  by_cases hlen : cfg.long_window ≤ (s.prices ++ [price]).length
  · simp only [if_pos hlen]
    rcases s.prev_short with _ | ps <;> rcases s.prev_long with _ | pl <;>
      dsimp only
    · exact ⟨by simp, by simp⟩
    · exact ⟨by simp, by simp⟩
    · exact ⟨by simp, by simp⟩
    · split_ifs <;> exact ⟨by simp, by simp⟩
  · simp only [if_neg hlen]
    exact ⟨by simp, by simp⟩

/-- An exception-free `predictive_trade` cycle increments the counter by
exactly one and breaks exactly when it reaches the bound. -/
theorem predCycle_ok_counter (cfg : PredConfig) (s : PredState)
    (i : CycleInput) (h : i.ok = true) :
    (predCycle cfg s i).1.counter = s.counter + 1 ∧
    (predCycle cfg s i).2.2 = breakTest cfg.iterations (s.counter + 1) := by
  unfold CycleInput.ok at h
  rw [Bool.and_eq_true] at h
  obtain ⟨h1, ho⟩ := h
  obtain ⟨price, hp⟩ := Option.isSome_iff_exists.mp h1
  obtain ⟨bbuy, hbuy⟩ := place_order_ok cfg.symbol "buy" cfg.usd_amount i ho
  obtain ⟨bsell, hsell⟩ := place_order_ok cfg.symbol "sell" cfg.usd_amount i ho
  unfold predCycle
  rw [hp]
  simp only [hbuy, hsell]
  split_ifs <;> exact ⟨by simp, by simp⟩

/-- Over an exception-free trace, `autoRun` with bound n breaks exactly
when the counter can reach n within the trace. -/
theorem autoRun_term (cfg : AutoConfig) (n : ℕ) (hn : cfg.iterations = some n) :
    ∀ (inputs : List CycleInput) (s : AutoState),
      (∀ j ∈ inputs, j.ok = true) → s.counter < n →
      (autoRun cfg s inputs).2.2 = decide (n ≤ s.counter + inputs.length) := by
  intro inputs
  induction inputs with
  | nil =>
    intro s _ hc
    simp only [autoRun, List.length_nil, Nat.add_zero]
    exact (decide_eq_false (by omega)).symm
  | cons i rest ih =>
    intro s h hc
    have hi : i.ok = true := h i (List.mem_cons_self i rest)
    have hrest : ∀ j ∈ rest, j.ok = true :=
      fun j hj => h j (List.mem_cons_of_mem i hj)
    obtain ⟨hcnt, hbr⟩ := autoCycle_ok_counter cfg s i hi
    rw [hn] at hbr
    simp only [autoRun]
    by_cases hreach : n ≤ s.counter + 1
    · have ht : (autoCycle cfg s i).2.2 = true := by
        rw [hbr]
        unfold breakTest
        exact decide_eq_true hreach
      rw [if_pos ht]
      exact (decide_eq_true (by simp only [List.length_cons]; omega)).symm
    · have ht : (autoCycle cfg s i).2.2 = false := by
        rw [hbr]
        unfold breakTest
        exact decide_eq_false hreach
      rw [if_neg (by rw [ht]; exact Bool.false_ne_true)]
      have := ih (autoCycle cfg s i).1 hrest (by omega)
      rw [hcnt] at this
      rw [this]
      rw [decide_eq_decide]
      simp only [List.length_cons]
      omega

/-- Over an exception-free trace, `predRun` with bound n breaks exactly
when the counter can reach n within the trace. -/
theorem predRun_term (cfg : PredConfig) (n : ℕ) (hn : cfg.iterations = some n) :
    ∀ (inputs : List CycleInput) (s : PredState),
      (∀ j ∈ inputs, j.ok = true) → s.counter < n →
      (predRun cfg s inputs).2.2 = decide (n ≤ s.counter + inputs.length) := by
  intro inputs
  induction inputs with
  | nil =>
    intro s _ hc
    simp only [predRun, List.length_nil, Nat.add_zero]
    exact (decide_eq_false (by omega)).symm
  | cons i rest ih =>
    intro s h hc
    have hi : i.ok = true := h i (List.mem_cons_self i rest)
    have hrest : ∀ j ∈ rest, j.ok = true :=
      fun j hj => h j (List.mem_cons_of_mem i hj)
    obtain ⟨hcnt, hbr⟩ := predCycle_ok_counter cfg s i hi
    rw [hn] at hbr
    simp only [predRun]
    by_cases hreach : n ≤ s.counter + 1
    · have ht : (predCycle cfg s i).2.2 = true := by
        rw [hbr]
        unfold breakTest
        exact decide_eq_true hreach
      rw [if_pos ht]
      exact (decide_eq_true (by simp only [List.length_cons]; omega)).symm
    · have ht : (predCycle cfg s i).2.2 = false := by
        rw [hbr]
        unfold breakTest
        exact decide_eq_false hreach
      rw [if_neg (by rw [ht]; exact Bool.false_ne_true)]
      have := ih (predCycle cfg s i).1 hrest (by omega)
      rw [hcnt] at this
      rw [this]
      rw [decide_eq_decide]
      simp only [List.length_cons]
      omega

/-- C5 counterexample: with iterations = 1, a single cycle whose price
fetch fails makes one fetch attempt but does not decrement the
remaining-iteration counter (`counter` stays 0) and the loop does not
stop: the claim that every cycle, including failed-fetch cycles, counts
towards the bound is false. -/
theorem bounded_iterations_cx :
    (auto_trade ⟨"BTC-USD", 5, 3, 7, some 1⟩
      [⟨FetchOutcome.netErr, FetchOutcome.netErr, PostOutcome.ok⟩]).2.2 =
      false ∧
    (auto_trade ⟨"BTC-USD", 5, 3, 7, some 1⟩
      [⟨FetchOutcome.netErr, FetchOutcome.netErr, PostOutcome.ok⟩]).1.counter =
      0 := by
  constructor <;> rfl

/-- C5 amended: with a bound of n ≥ 1 cycles, only cycles that complete
without an exception increment the counter, so the loop (either variant)
breaks exactly when it has executed n exception-free cycles: over any
all-exception-free trace it terminates iff the trace has length ≥ n.
(Cycles whose price fetch or order submission raises do not count — see
the counterexample.) -/
theorem bounded_iterations_terminate (cfgA : AutoConfig) (cfgP : PredConfig)
    (n : ℕ) (inputsA inputsP : List CycleInput)
    (hnA : cfgA.iterations = some n) (hnP : cfgP.iterations = some n)
    (hn1 : 1 ≤ n)
    (hA : ∀ j ∈ inputsA, j.ok = true) (hP : ∀ j ∈ inputsP, j.ok = true) :
    ((auto_trade cfgA inputsA).2.2 = true ↔ n ≤ inputsA.length) ∧
    ((predictive_trade cfgP inputsP).2.2 = true ↔ n ≤ inputsP.length) := by
  have hA2 := autoRun_term cfgA n hnA inputsA ⟨[], none, none, false, 0⟩ hA hn1
  have hP2 := predRun_term cfgP n hnP inputsP ⟨[], false, 0⟩ hP hn1
  constructor
  · show (autoRun cfgA ⟨[], none, none, false, 0⟩ inputsA).2.2 = true ↔
      n ≤ inputsA.length
    rw [hA2]
    simp
  · show (predRun cfgP ⟨[], false, 0⟩ inputsP).2.2 = true ↔ n ≤ inputsP.length
    rw [hP2]
    simp

/-- C5 amended witness: with n = 2 and two exception-free cycles, both
loops terminate; the theorem instances also show one cycle would not
suffice. -/
theorem bounded_iterations_terminate_witness :
    ((auto_trade ⟨"BTC-USD", 5, 1, 2, some 2⟩
      [⟨FetchOutcome.ok ⟨[⟨10, 10⟩]⟩, FetchOutcome.ok ⟨[⟨10, 10⟩]⟩,
        PostOutcome.ok⟩,
       ⟨FetchOutcome.ok ⟨[⟨11, 11⟩]⟩, FetchOutcome.ok ⟨[⟨11, 11⟩]⟩,
        PostOutcome.ok⟩]).2.2 = true ↔ (2 : ℕ) ≤ 2) ∧
    ((predictive_trade ⟨"BTC-USD", 5, 2, some 2⟩
      [⟨FetchOutcome.ok ⟨[⟨10, 10⟩]⟩, FetchOutcome.ok ⟨[⟨10, 10⟩]⟩,
        PostOutcome.ok⟩,
       ⟨FetchOutcome.ok ⟨[⟨11, 11⟩]⟩, FetchOutcome.ok ⟨[⟨11, 11⟩]⟩,
        PostOutcome.ok⟩]).2.2 = true ↔ (2 : ℕ) ≤ 2) :=
  bounded_iterations_terminate ⟨"BTC-USD", 5, 1, 2, some 2⟩
    ⟨"BTC-USD", 5, 2, some 2⟩ 2 _ _ rfl rfl (by decide) (by decide) (by decide)

end TraderGPT
